import Mathlib

/-!
Shallow embedding of `immudb_wrapper.py` (AlmaLinux/immudb-wrapper).

The wrapper composes a verified key-value ledger (immudb, reached over gRPC)
with content hashing and git-metadata extraction.  External collaborators are
modelled at their interfaces:

* gRPC outcomes (success / `_InactiveRpcError` / other `RpcError` / other
  exception) are supplied by an `RpcEnv` oracle, one outcome per call;
* the sha256 hexdigest is an oracle `H : String → String` (the claims only
  need that it is a function);
* bytes are modelled as `String` (UTF-8 decode/encode is the identity here);
* Python dicts are association lists with CPython insertion-order update
  semantics (`dictInsert` / `dictMerge` model `{**a, **b}`);
* Python floats in `get_size_format` are modelled by exact rationals: every
  division performed there is by 1024, which is exact in binary64 for inputs
  below 2^53, so the rational value coincides with the float value.
-/

/-- JSON-like values, the payloads stored in the ledger. -/
inductive Val where
  | str : String → Val
  | int : Int → Val
  | bool : Bool → Val
  | null : Val
  | arr : List Val → Val
  | dict : List (String × Val) → Val

/-- A Python `dict` with string keys, as an insertion-ordered association list. -/
abbrev PyDict := List (String × Val)

/-- First-match lookup; `dictInsert`/`dictMerge` keep keys unique, so this is
the CPython `d[k]` of the dicts built below. -/
def dlookup : PyDict → String → Option Val
  | [], _ => none
  | (k1, v) :: rest, k => if k1 = k then some v else dlookup rest k

/-- Models the Python membership test `k in d`. -/
def hasKeyB (d : PyDict) (k : String) : Bool :=
  d.any fun kv => kv.1 == k

/-- Replaces the value of an entry whose key is `k`, keeping its position. -/
def replaceEntry (k : String) (v : Val) (kv : String × Val) : String × Val :=
  if kv.1 = k then (k, v) else kv

/-- CPython `d[k] = v`: overwrite in place if the key exists, else append. -/
def dictInsert (d : PyDict) (k : String) (v : Val) : PyDict :=
  if hasKeyB d k then d.map (replaceEntry k v) else d ++ [(k, v)]

/-- CPython dict-literal merge `{**a, **b}`: entries of `b` are inserted into
`a` left to right, later occurrences winning. -/
def dictMerge (a b : PyDict) : PyDict :=
  b.foldl (fun acc kv => dictInsert acc kv.1 kv.2) a

/-- Escapes quotes and backslashes, the JSON string escapes the payloads here
can need. -/
def jsonEscape (s : String) : String :=
  String.mk (s.toList.foldr (fun c acc => if c = '"' ∨ c = '\\' then '\\' :: c :: acc else c :: acc) [])

mutual
/-- Models `json.dumps` with its default separators. -/
def dumpsVal : Val → String
  | .str s => "\"" ++ jsonEscape s ++ "\""
  | .int n => toString n
  | .bool b => if b then "true" else "false"
  | .null => "null"
  | .arr xs => "[" ++ dumpsArr xs ++ "]"
  | .dict kvs => "\x7b" ++ dumpsObj kvs ++ "\x7d"

/-- Comma-joined serialization of a JSON array body. -/
def dumpsArr : List Val → String
  | [] => ""
  | x :: rest => dumpsVal x ++ (if rest.isEmpty then "" else ", ") ++ dumpsArr rest

/-- Comma-joined serialization of a JSON object body. -/
def dumpsObj : List (String × Val) → String
  | [] => ""
  | (k, v) :: rest =>
      "\"" ++ jsonEscape k ++ "\": " ++ dumpsVal v ++ (if rest.isEmpty then "" else ", ") ++ dumpsObj rest
end

/-- The exceptions the wrapper distinguishes: `grpc._channel._InactiveRpcError`
(carrying an optional `details()` string), any other `grpc.RpcError`, and
everything else. -/
inductive Exc where
  | inactiveRpc (details : Option String)
  | rpcOther (details : Option String)
  | otherExc (name : String)
deriving DecidableEq

/-- Whether `except RpcError` catches the exception. -/
def Exc.isRpcError : Exc → Bool
  | .inactiveRpc _ => true
  | .rpcOther _ => true
  | .otherExc _ => false

/-- Models `traceback.format_exc()`: the diagnostic text of the in-flight
exception. -/
def formatExc : Exc → String
  | .inactiveRpc d => "Traceback: grpc._channel._InactiveRpcError: " ++ d.getD ""
  | .rpcOther d => "Traceback: grpc.RpcError: " ++ d.getD ""
  | .otherExc n => "Traceback: " ++ n

/-- The runtime values `encode` accepts (str, bytes, dict).  Any other Python
type makes the source raise `ValueError`; such values are outside this type. -/
inductive PyVal where
  | str (s : String)
  | bytes (b : String)
  | dict (d : PyDict)

/-- `ImmudbWrapper.encode`: str is UTF-8 encoded (identity here), bytes pass
through, dicts are JSON-serialized. -/
def encode : PyVal → String
  | .str s => s
  | .bytes b => b
  | .dict d => dumpsVal (.dict d)

/-- `immudb.datatypes.SetResponse`, the proof object `verifiedSet` returns. -/
structure SetResponse where
  id : Int
  verified : Bool

/-- `dataclasses.asdict` on a `SetResponse`. -/
def asdictSet (r : SetResponse) : PyDict :=
  [("id", .int r.id), ("verified", .bool r.verified)]

/-- `immudb.datatypes.SafeGetResponse`.  The `value` bytes always hold JSON
produced by `json.dumps`, so the decoded `Val` is carried directly. -/
structure SafeGetResponse where
  id : Int
  key : String
  value : Val
  timestamp : Int
  verified : Bool
  refkey : Option String
  revision : Int

/-- `ImmudbWrapper.to_dict`: `asdict`, then the key is UTF-8 decoded and the
value JSON-decoded. -/
def to_dict (r : SafeGetResponse) : PyDict :=
  [("id", .int r.id), ("key", .str r.key), ("value", r.value),
   ("timestamp", .int r.timestamp), ("verified", .bool r.verified),
   ("refkey", match r.refkey with | none => Val.null | some s => Val.str s),
   ("revision", .int r.revision)]

/-- Oracle for one round of RPC calls: the outcome of `login`, of a
`verifiedSet` on given encoded key/value, and of a `verifiedGet` on given
encoded key and revision. -/
structure RpcEnv where
  loginExc : Option Exc
  setOutcome : String → String → Except Exc SetResponse
  getOutcome : String → Option Int → Except Exc SafeGetResponse

/-- `ImmudbWrapper.verified_get`: a verified read; any `RpcError` is captured
as an error record, other exceptions propagate. -/
def verified_get (env : RpcEnv) (key : PyVal) (revision : Option Int) : Except Exc PyDict :=
  match env.getOutcome (encode key) revision with
  | .ok resp => .ok (to_dict resp)
  | .error e => if e.isRpcError then .ok [("error", .str (formatExc e))] else .error e

/-- `ImmudbWrapper.verified_set`: a verified write with the same error-capture
discipline as `verified_get`. -/
def verified_set (env : RpcEnv) (key : PyVal) (value : PyVal) : Except Exc PyDict :=
  match env.setOutcome (encode key) (encode value) with
  | .ok resp => .ok (asdictSet resp)
  | .error e => if e.isRpcError then .ok [("error", .str (formatExc e))] else .error e

/-- Body of `ImmudbWrapper.notarize`, the function the retry decorator wraps:
re-login, verified write, and on a non-error record a verified read-back. -/
def notarize_body (env : RpcEnv) (key : String) (value : PyVal) : Except Exc PyDict :=
  match env.loginExc with
  | some e => .error e
  | none =>
    match verified_set env (.str key) value with
    | .error e => .error e
    | .ok result =>
      if hasKeyB result "error" then .ok result
      else verified_get env (.str key) none

/-- Body of `ImmudbWrapper.authenticate`: re-login, then a verified read. -/
def authenticate_body (env : RpcEnv) (key : PyVal) : Except Exc PyDict :=
  match env.loginExc with
  | some e => .error e
  | none => verified_get env key none

/-- Decidable list-prefix test, used for the substring test below. -/
def listIsPrefix : List Char → List Char → Bool
  | [], _ => true
  | _ :: _, [] => false
  | a :: as, b :: bs => a == b && listIsPrefix as bs

/-- Decidable substring containment, modelling Python `needle in haystack`. -/
def isSubstr (needle haystack : String) : Bool :=
  go needle.toList haystack.toList
where
  go (n : List Char) : List Char → Bool
    | [] => n.isEmpty
    | c :: rest => listIsPrefix n (c :: rest) || go n rest

/-- The guard `exc_details and any(detail in exc_details for detail in
possible_exc_details)` of the retry decorator. -/
def detailsMatch (possible : List String) : Option String → Bool
  | none => false
  | some d => (!d.isEmpty) && possible.any fun p => isSubstr p d

/-- Observable events of one run of the retry loop: a call of the wrapped
function, or a `sleep(self.retry_timeout)` backoff. -/
inductive REvent where
  | attempt (i : Nat)
  | sleepBackoff
deriving DecidableEq

/-- The value of the local `last_exc`: the initial bare `Exception()` or the
last caught `_InactiveRpcError`. -/
inductive LastExc where
  | bare
  | rpc (details : Option String)
deriving DecidableEq

/-- Result of the retry loop: a returned value, a re-raised exception, the
final `raise last_exc`, or exhaustion of the modelling fuel. -/
inductive RetryOut where
  | value (v : PyDict)
  | raise (e : Exc)
  | raiseLast (last : LastExc)
  | fuelOut

/-- The `while max_retries:` loop of the `retry` decorator.  The counter is an
`Int` because Python decrements a possibly non-positive `self.max_retries`;
`fuel` only bounds the modelled number of iterations. -/
def retryGo (possible : List String) (f : Nat → Except Exc PyDict) :
    Nat → Int → Nat → LastExc → List REvent × RetryOut
  | 0, _, _, _ => ([], .fuelOut)
  | fuel + 1, c, i, last =>
    if c = 0 then ([], .raiseLast last)
    else
      match f i with
      | .ok v => ([.attempt i], .value v)
      | .error (.inactiveRpc det) =>
        if detailsMatch possible det then
          let r := retryGo possible f fuel (c - 1) (i + 1) (.rpc det)
          (.attempt i :: .sleepBackoff :: r.1, r.2)
        else ([.attempt i], .raise (.inactiveRpc det))
      | .error e => ([.attempt i], .raise e)

/-- A full run of a function wrapped by `retry(possible_exc_details)`, with
`max_retries` taken from the instance. -/
def retryRun (possible : List String) (maxRetries : Int) (f : Nat → Except Exc PyDict)
    (fuel : Nat) : List REvent × RetryOut :=
  retryGo possible f fuel maxRetries 0 .bare

/-- The signature allow-list passed to `retry` on `notarize`/`authenticate`. -/
def possible_exc_details_notarize : List String := ["Connection timed out"]

/-- `ImmudbWrapper.notarize` as deployed: the retry decorator around
`notarize_body`, attempt `i` seeing RPC outcomes `envs i`. -/
def notarize (envs : Nat → RpcEnv) (maxRetries : Int) (fuel : Nat)
    (key : String) (value : PyVal) : List REvent × RetryOut :=
  retryRun possible_exc_details_notarize maxRetries (fun i => notarize_body (envs i) key value) fuel

/-- `ImmudbWrapper.authenticate` as deployed: the retry decorator around
`authenticate_body`. -/
def authenticate (envs : Nat → RpcEnv) (maxRetries : Int) (fuel : Nat)
    (key : PyVal) : List REvent × RetryOut :=
  retryRun possible_exc_details_notarize maxRetries (fun i => authenticate_body (envs i) key) fuel

/-- The event trace of `n` consecutive failing attempts starting at index `i`,
each followed by a backoff sleep. -/
def allFailTrace : Nat → Nat → List REvent
  | _, 0 => []
  | i, n + 1 => .attempt i :: .sleepBackoff :: allFailTrace (i + 1) n

/-- Round to the nearest integer, ties to even: the rounding of the decimal
conversion in CPython float formatting. -/
def roundHalfEven (q : ℚ) : ℤ :=
  if q - ⌊q⌋ < 1 / 2 then ⌊q⌋
  else if 1 / 2 < q - ⌊q⌋ then ⌊q⌋ + 1
  else if ⌊q⌋ % 2 = 0 then ⌊q⌋ else ⌊q⌋ + 1

/-- Two-digit zero-padded rendering of a remainder below 100. -/
def pad2 (r : Nat) : String :=
  if r < 10 then "0" ++ toString r else toString r

/-- The Python format `f"\x7bvalue:.2f\x7d"` on an exactly-represented float:
round half to even at two decimals, then render. -/
def format2f (x : ℚ) : String :=
  if roundHalfEven (100 * x) < 0 then
    "-" ++ toString ((roundHalfEven (100 * x)).natAbs / 100) ++ "."
      ++ pad2 ((roundHalfEven (100 * x)).natAbs % 100)
  else
    toString ((roundHalfEven (100 * x)).toNat / 100) ++ "."
      ++ pad2 ((roundHalfEven (100 * x)).toNat % 100)

/-- The unit loop of `get_size_format`: while a unit remains, either format at
the current unit when `value < factor`, or divide and advance. -/
def sizeLoop (factor : ℚ) (suffix : String) : ℚ → List String → String
  | value, [] => format2f value ++ " Y" ++ suffix
  | value, unit :: rest =>
      if value < factor then format2f value ++ " " ++ unit ++ suffix
      else sizeLoop factor suffix (value / factor) rest

/-- `ImmudbWrapper.get_size_format`.  The float arithmetic is modelled by
exact rationals, which agrees with binary64 for the default factor 1024 and
inputs below 2^53 (each division only shifts the exponent). -/
def get_size_format (value : ℚ) (factor : ℚ) (suffix : String) : String :=
  sizeLoop factor suffix value ["", "K", "M", "G", "T", "P", "E", "Z"]

/-- `ImmudbWrapper.hash_content` with hash oracle `H` (sha256 hexdigest):
text is UTF-8 encoded (identity here) and fed to the hasher. -/
def hash_content (H : String → String) (content : String) : String :=
  H content

/-- A file as the wrapper sees it: basename, byte content, `st_size`. -/
structure FileInfo where
  name : String
  contents : String
  size : Nat

/-- `ImmudbWrapper.hash_file`: the streamed chunks feed the hasher exactly the
file bytes, so the digest is `H` of the content. -/
def hash_file (H : String → String) (f : FileInfo) : String :=
  H f.contents

/-- `ImmudbWrapper.default_metadata`. -/
def default_metadata : PyDict :=
  [("sbom_api_ver", .str "0.2")]

/-- The payload dict built by `ImmudbWrapper.notarize_file`. -/
def file_payload (H : String → String) (username : String) (f : FileInfo)
    (user_metadata : PyDict) : PyDict :=
  [("Name", .str f.name),
   ("Kind", .str "file"),
   ("Size", .str (get_size_format (f.size : ℚ) 1024 "B")),
   ("Hash", .str (hash_file H f)),
   ("Signer", .str username),
   ("Metadata", .dict (dictMerge default_metadata user_metadata))]

/-- The (key, payload) pair `notarize_file` passes to `notarize`. -/
def notarize_file_call (H : String → String) (username : String) (f : FileInfo)
    (user_metadata : PyDict) : String × PyDict :=
  (hash_file H f, file_payload H username f user_metadata)

/-- A git commit as surfaced by the version-control library: sha, author and
committer identities with pre-rendered strftime timestamps, message, optional
PGP signature, direct parent shas (first parent first), and tree sha. -/
structure GitCommit where
  hexsha : String
  authorEmail : String
  authorName : String
  authoredWhen : String
  committerEmail : String
  committerName : String
  committedWhen : String
  message : String
  gpgsig : Option String
  parents : List String
  tree : String

/-- A clone as `extract_git_metadata` sees it: the object store, the HEAD sha,
and the parsed first-remote URL (netloc and path from `urlparse`). -/
structure GitRepo where
  commits : List GitCommit
  headSha : String
  remoteNetloc : String
  remotePath : String

/-- Resolving a sha in the object store. -/
def lookupCommit (repo : GitRepo) (sha : String) : Option GitCommit :=
  repo.commits.find? fun c => c.hexsha = sha

/-- Modelled from GitPython: `Commit.iter_parents()` runs a rev-list from the
commit with the commit itself skipped, yielding every ancestor, not only the
direct parents.  The traversal is modelled for linear histories (it follows
first parents); `fuel` bounds the walk and any bound at least the history
length is exact. -/
def ancestorChain (repo : GitRepo) : Nat → Option String → List GitCommit
  | 0, _ => []
  | _ + 1, none => []
  | fuel + 1, some sha =>
    match lookupCommit repo sha with
    | none => []
    | some c => c :: ancestorChain repo fuel c.parents.head?

/-- The sequence `commit.iter_parents()` yields for the HEAD commit. -/
def iterParents (repo : GitRepo) (fuel : Nat) (c : GitCommit) : List GitCommit :=
  ancestorChain repo fuel c.parents.head?

/-- The `re.sub(r"^/", ":", url.path)` of the Name synthesis. -/
def subLeadingSlash (path : String) : String :=
  if path.startsWith "/" then ":" ++ path.drop 1 else path

/-- The dict `extract_git_metadata` builds once the HEAD commit is resolved:
the synthesized Name plus the git block. -/
def git_metadata_body (repo : GitRepo) (fuel : Nat) (c : GitCommit) : PyDict :=
  [("Name", .str ("git@" ++ repo.remoteNetloc ++ subLeadingSlash repo.remotePath
                   ++ "@" ++ c.hexsha.take 7)),
   ("git", .dict [
     ("Author", .dict [("Email", .str c.authorEmail), ("Name", .str c.authorName),
                       ("When", .str c.authoredWhen)]),
     ("Commit", .str c.hexsha),
     ("Committer", .dict [("Email", .str c.committerEmail), ("Name", .str c.committerName),
                          ("When", .str c.committedWhen)]),
     ("Message", .str c.message),
     ("PGPSignature", match c.gpgsig with | none => Val.null | some s => Val.str s),
     ("Parents", .arr ((iterParents repo fuel c).map fun p => Val.str p.hexsha)),
     ("Tree", .str c.tree)])]

/-- `ImmudbWrapper.extract_git_metadata`: the synthesized Name plus the git
block; `none` models the hard failure on an unresolvable HEAD. -/
def extract_git_metadata (repo : GitRepo) (fuel : Nat) : Option PyDict :=
  match lookupCommit repo repo.headSha with
  | none => none
  | some c => some (git_metadata_body repo fuel c)

/-- The value stored under the key "Parents" inside the git block of the
extracted metadata. -/
def parents_field (repo : GitRepo) (fuel : Nat) : Option Val :=
  match extract_git_metadata repo fuel with
  | none => none
  | some md =>
    match dlookup md "git" with
    | some (.dict g) => dlookup g "Parents"
    | _ => none

/-- Spec-side description of the ancestor shas of a commit chain, written
independently of the extraction plumbing: follow parent links and collect the
visited shas. -/
def ancestor_shas (repo : GitRepo) : Nat → Option String → List String
  | 0, _ => []
  | _ + 1, none => []
  | fuel + 1, some sha =>
    match lookupCommit repo sha with
    | none => []
    | some c => sha :: ancestor_shas repo fuel c.parents.head?

/-- The payload dict built by `ImmudbWrapper.notarize_git_repo` from extracted
metadata `md`, directory size, and caller metadata. -/
def git_payload (H : String → String) (username : String) (md : PyDict)
    (dirSize : Nat) (user_metadata : PyDict) : PyDict :=
  [("Name", (dlookup md "Name").getD .null),
   ("Kind", .str "git"),
   ("Size", .str (get_size_format (dirSize : ℚ) 1024 "B")),
   ("Hash", .str (hash_content H (dumpsVal ((dlookup md "git").getD .null)))),
   ("Signer", .str username),
   ("Metadata", .dict (dictMerge (dictMerge [("git", (dlookup md "git").getD .null)]
                                    default_metadata) user_metadata))]

/-- The (key, payload) pair `notarize_git_repo` passes to `notarize`:
the key is the hash of the JSON-serialized git block. -/
def notarize_git_repo_call (H : String → String) (username : String) (repo : GitRepo)
    (fuel dirSize : Nat) (user_metadata : PyDict) : Option (String × PyDict) :=
  (extract_git_metadata repo fuel).map fun md =>
    (hash_content H (dumpsVal ((dlookup md "git").getD .null)),
     git_payload H username md dirSize user_metadata)

/-- The key `ImmudbWrapper.authenticate_git_repo` recomputes and looks up. -/
def authenticate_git_repo_key (H : String → String) (repo : GitRepo) (fuel : Nat) :
    Option String :=
  (extract_git_metadata repo fuel).map fun md =>
    hash_content H (dumpsVal ((dlookup md "git").getD .null))

/-- Lookup inside the Metadata mapping of a payload. -/
def metaLookup (p : PyDict) (k : String) : Option Val :=
  match dlookup p "Metadata" with
  | some (.dict m) => dlookup m k
  | _ => none

/-- Hash oracle for concrete instances: an injective stand-in digest. -/
def HW : String → String := fun s => "sha256:" ++ s

/-- A successful verified-get response used by concrete instances. -/
def respOk : SafeGetResponse :=
  { id := 1, key := "key", value := .str "v", timestamp := 0, verified := true,
    refkey := none, revision := 1 }

/-- An environment where every RPC succeeds. -/
def envOk : RpcEnv :=
  { loginExc := none,
    setOutcome := fun _ _ => .ok { id := 1, verified := true },
    getOutcome := fun _ _ => .ok respOk }

/-- An environment whose login always fails with the recognized transient
signature. -/
def envTimeout : RpcEnv :=
  { loginExc := some (.inactiveRpc (some "Connection timed out")),
    setOutcome := fun _ _ => .error (.rpcOther none),
    getOutcome := fun _ _ => .error (.rpcOther none) }

/-- An environment whose verified write fails at the RPC layer. -/
def envSetRpcFail : RpcEnv :=
  { loginExc := none,
    setOutcome := fun _ _ => .error (.inactiveRpc (some "boom")),
    getOutcome := fun _ _ => .ok respOk }

/-- An environment whose login fails with an unrecognized detail string. -/
def envLoginBoom : RpcEnv :=
  { loginExc := some (.inactiveRpc (some "boom")),
    setOutcome := fun _ _ => .ok { id := 1, verified := true },
    getOutcome := fun _ _ => .ok respOk }

/-- Root commit of the concrete linear history. -/
def cC : GitCommit :=
  { hexsha := "ccccccc3", authorEmail := "a@x", authorName := "A",
    authoredWhen := "2024-01-01T00:00:00+0000", committerEmail := "b@x",
    committerName := "B", committedWhen := "2024-01-01T00:00:00+0000",
    message := "root", gpgsig := none, parents := [], tree := "t3" }

/-- Middle commit, child of `cC`. -/
def cB : GitCommit :=
  { hexsha := "bbbbbbb2", authorEmail := "a@x", authorName := "A",
    authoredWhen := "2024-01-02T00:00:00+0000", committerEmail := "b@x",
    committerName := "B", committedWhen := "2024-01-02T00:00:00+0000",
    message := "mid", gpgsig := none, parents := ["ccccccc3"], tree := "t2" }

/-- HEAD commit, child of `cB`. -/
def cA : GitCommit :=
  { hexsha := "aaaaaaa1", authorEmail := "a@x", authorName := "A",
    authoredWhen := "2024-01-03T00:00:00+0000", committerEmail := "b@x",
    committerName := "B", committedWhen := "2024-01-03T00:00:00+0000",
    message := "head", gpgsig := some "sig", parents := ["bbbbbbb2"], tree := "t1" }

/-- An unrelated commit present only in the second clone. -/
def cD : GitCommit :=
  { hexsha := "ddddddd4", authorEmail := "z@x", authorName := "Z",
    authoredWhen := "2024-01-04T00:00:00+0000", committerEmail := "z@x",
    committerName := "Z", committedWhen := "2024-01-04T00:00:00+0000",
    message := "stray", gpgsig := none, parents := [], tree := "t4" }

/-- A clone with the three-commit linear history `cA ← cB ← cC`. -/
def repoLinear : GitRepo :=
  { commits := [cA, cB, cC], headSha := "aaaaaaa1",
    remoteNetloc := "github.com", remotePath := "/alma/x.git" }

/-- A physically different clone of the same commit: same remote and HEAD,
object store stored in another order with one extra unreachable commit. -/
def repoClone : GitRepo :=
  { commits := [cC, cB, cA, cD], headSha := "aaaaaaa1",
    remoteNetloc := "github.com", remotePath := "/alma/x.git" }

/-- A concrete file for instances. -/
def f0 : FileInfo := { name := "f.txt", contents := "hello", size := 5 }

/-- A concrete extracted-metadata dict for instances. -/
def md0 : PyDict := [("Name", .str "n"), ("git", .dict [("Commit", .str "c")])]

/-- Concrete caller metadata colliding with the schema default. -/
def user0 : PyDict := [("sbom_api_ver", .str "v9")]

theorem replaceEntry_of_eq (k : String) (v : Val) (k1 : String) (v1 : Val)
    (h : k1 = k) : replaceEntry k v (k1, v1) = (k, v) := by
  unfold replaceEntry
  exact if_pos h

theorem replaceEntry_of_ne (k : String) (v : Val) (k1 : String) (v1 : Val)
    (h : ¬k1 = k) : replaceEntry k v (k1, v1) = (k1, v1) := by
  unfold replaceEntry
  exact if_neg h

theorem dlookup_cons_eq (k : String) (v : Val) (rest : PyDict) :
    dlookup ((k, v) :: rest) k = some v := by
  show (if k = k then some v else dlookup rest k) = some v
  exact if_pos rfl

theorem dlookup_cons_ne (k1 : String) (v : Val) (rest : PyDict) (k : String)
    (h : ¬k1 = k) : dlookup ((k1, v) :: rest) k = dlookup rest k := by
  show (if k1 = k then some v else dlookup rest k) = dlookup rest k
  exact if_neg h

theorem hasKeyB_cons_elim (k1 : String) (v1 : Val) (tl : PyDict) (k : String)
    (h : hasKeyB ((k1, v1) :: tl) k = true) (h1 : ¬k1 = k) : hasKeyB tl k = true := by
  simp only [hasKeyB, List.any_cons, Bool.or_eq_true, beq_iff_eq] at h ⊢
  rcases h with h | h
  · exact absurd h h1
  · exact h

theorem dlookup_eq_none_of_not_hasKey (a : PyDict) (k : String)
    (h : hasKeyB a k = false) : dlookup a k = none := by
  induction a with
  | nil => rfl
  | cons hd tl ih =>
    obtain ⟨k1, v1⟩ := hd
    simp only [hasKeyB, List.any_cons, Bool.or_eq_false_iff, beq_eq_false_iff_ne] at h
    rw [dlookup_cons_ne k1 v1 tl k h.1, ih (by simp [hasKeyB, h.2])]

theorem dlookup_append (a b : PyDict) (k : String) :
    dlookup (a ++ b) k =
      match dlookup a k with
      | some v => some v
      | none => dlookup b k := by
  induction a with
  | nil => rfl
  | cons hd tl ih =>
    obtain ⟨k1, v1⟩ := hd
    by_cases h : k1 = k
    · rw [List.cons_append, h, dlookup_cons_eq, dlookup_cons_eq]
    · rw [List.cons_append, dlookup_cons_ne k1 v1 _ k h, dlookup_cons_ne k1 v1 tl k h, ih]

theorem dlookup_map_replace_self (a : PyDict) (k : String) (v : Val)
    (h : hasKeyB a k = true) : dlookup (a.map (replaceEntry k v)) k = some v := by
  induction a with
  | nil => simp [hasKeyB] at h
  | cons hd tl ih =>
    obtain ⟨k1, v1⟩ := hd
    by_cases h1 : k1 = k
    · rw [List.map_cons, replaceEntry_of_eq k v k1 v1 h1, dlookup_cons_eq]
    · rw [List.map_cons, replaceEntry_of_ne k v k1 v1 h1, dlookup_cons_ne k1 v1 _ k h1,
        ih (hasKeyB_cons_elim k1 v1 tl k h h1)]

theorem dlookup_map_replace_ne (a : PyDict) (k k0 : String) (v : Val)
    (h : ¬k0 = k) : dlookup (a.map (replaceEntry k v)) k0 = dlookup a k0 := by
  induction a with
  | nil => rfl
  | cons hd tl ih =>
    obtain ⟨k1, v1⟩ := hd
    by_cases h1 : k1 = k
    · rw [List.map_cons, replaceEntry_of_eq k v k1 v1 h1,
        dlookup_cons_ne k v _ k0 (fun hh => h hh.symm),
        dlookup_cons_ne k1 v1 tl k0 (fun hh => h (h1 ▸ hh).symm), ih]
    · rw [List.map_cons, replaceEntry_of_ne k v k1 v1 h1]
      by_cases h2 : k1 = k0
      · subst h2
        rw [dlookup_cons_eq, dlookup_cons_eq]
      · rw [dlookup_cons_ne k1 v1 _ k0 h2, dlookup_cons_ne k1 v1 tl k0 h2, ih]

theorem dlookup_dictInsert_self (a : PyDict) (k : String) (v : Val) :
    dlookup (dictInsert a k v) k = some v := by
  rw [dictInsert]
  by_cases h : hasKeyB a k
  · rw [if_pos h, dlookup_map_replace_self a k v h]
  · rw [if_neg h, dlookup_append, dlookup_eq_none_of_not_hasKey a k (by simpa using h)]
    exact dlookup_cons_eq k v []

theorem dlookup_dictInsert_ne (a : PyDict) (k k0 : String) (v : Val) (h : ¬k0 = k) :
    dlookup (dictInsert a k v) k0 = dlookup a k0 := by
  rw [dictInsert]
  by_cases hk : hasKeyB a k
  · rw [if_pos hk, dlookup_map_replace_ne a k k0 v h]
  · rw [if_neg hk, dlookup_append]
    cases hl : dlookup a k0 with
    | some v0 => rfl
    | none => rw [dlookup_cons_ne k v [] k0 (fun hh => h hh.symm)]; rfl

theorem dlookup_dictMerge_of_none (a u : PyDict) (k : String)
    (h : dlookup u k = none) : dlookup (dictMerge a u) k = dlookup a k := by
  induction u generalizing a with
  | nil => rfl
  | cons hd tl ih =>
    obtain ⟨k1, v1⟩ := hd
    by_cases h1 : k1 = k
    · subst h1
      rw [dlookup_cons_eq] at h
      cases h
    · rw [dlookup_cons_ne k1 v1 tl k h1] at h
      rw [dictMerge, List.foldl_cons]
      have htl := ih (dictInsert a k1 v1) h
      rw [dictMerge] at htl
      rw [htl, dlookup_dictInsert_ne a k1 k v1 (fun hh => h1 hh.symm)]

theorem dlookup_of_not_mem_keys (u : PyDict) (k : String)
    (h : k ∉ u.map Prod.fst) : dlookup u k = none := by
  induction u with
  | nil => rfl
  | cons hd tl ih =>
    obtain ⟨k1, v1⟩ := hd
    simp only [List.map_cons, List.mem_cons, not_or] at h
    rw [dlookup_cons_ne k1 v1 tl k (fun hh => h.1 hh.symm), ih h.2]

theorem dlookup_dictMerge_of_some (a u : PyDict) (k : String) (v : Val)
    (hnd : (u.map Prod.fst).Nodup) (h : dlookup u k = some v) :
    dlookup (dictMerge a u) k = some v := by
  induction u generalizing a with
  | nil => cases h
  | cons hd tl ih =>
    obtain ⟨k1, v1⟩ := hd
    simp only [List.map_cons, List.nodup_cons] at hnd
    rw [dictMerge, List.foldl_cons]
    by_cases h1 : k1 = k
    · subst h1
      rw [dlookup_cons_eq] at h
      injection h with hv
      rw [← hv]
      have htl : dlookup tl k1 = none := dlookup_of_not_mem_keys tl k1 hnd.1
      have hfin := dlookup_dictMerge_of_none (dictInsert a k1 v1) tl k1 htl
      rw [dictMerge] at hfin
      rw [hfin, dlookup_dictInsert_self]
    · rw [dlookup_cons_ne k1 v1 tl k h1] at h
      have hfin := ih (dictInsert a k1 v1) hnd.2 h
      rw [dictMerge] at hfin
      rw [hfin]

theorem verified_set_no_rpc_raise (env : RpcEnv) (k v : PyVal) (e : Exc)
    (h : verified_set env k v = .error e) : e.isRpcError = false := by
  rw [verified_set] at h
  cases hout : env.setOutcome (encode k) (encode v) with
  | ok r => rw [hout] at h; cases h
  | error e0 =>
    rw [hout] at h
    have h2 : (if e0.isRpcError = true
          then (Except.ok [("error", Val.str (formatExc e0))] : Except Exc PyDict)
          else Except.error e0) = Except.error e := h
    cases he0 : e0.isRpcError with
    | true => rw [if_pos he0] at h2; cases h2
    | false => rw [if_neg (by simp [he0])] at h2; injection h2 with hh; rw [← hh]; exact he0

theorem verified_get_no_rpc_raise (env : RpcEnv) (k : PyVal) (rev : Option Int) (e : Exc)
    (h : verified_get env k rev = .error e) : e.isRpcError = false := by
  rw [verified_get] at h
  cases hout : env.getOutcome (encode k) rev with
  | ok r => rw [hout] at h; cases h
  | error e0 =>
    rw [hout] at h
    have h2 : (if e0.isRpcError = true
          then (Except.ok [("error", Val.str (formatExc e0))] : Except Exc PyDict)
          else Except.error e0) = Except.error e := h
    cases he0 : e0.isRpcError with
    | true => rw [if_pos he0] at h2; cases h2
    | false => rw [if_neg (by simp [he0])] at h2; injection h2 with hh; rw [← hh]; exact he0

theorem retryGo_allFail (possible : List String) (f : Nat → Except Exc PyDict)
    (det : Nat → Option String)
    (hf : ∀ j, f j = .error (.inactiveRpc (det j)))
    (hm : ∀ j, detailsMatch possible (det j) = true) :
    ∀ (n i : Nat) (last : LastExc),
      retryGo possible f (n + 1) (n : Int) i last =
        (allFailTrace i n,
         .raiseLast (match n with | 0 => last | m + 1 => .rpc (det (i + m)))) := by
  intro n
  induction n with
  | zero => intro i last; rfl
  | succ m ih =>
    intro i last
    have hcne : ¬((m + 1 : Nat) : Int) = 0 := by exact_mod_cast Nat.succ_ne_zero m
    have hc : ((m + 1 : Nat) : Int) - 1 = (m : Int) := by push_cast; ring
    rw [retryGo, if_neg hcne]
    simp only [hf i, hm i, if_true, ite_true, hc, ih (i + 1) (.rpc (det i))]
    cases m with
    | zero => rfl
    | succ m0 =>
      simp only [allFailTrace]
      have harith : i + 1 + m0 = i + (m0 + 1) := by omega
      rw [harith]

/-- C1: for every key and value, notarize first re-logs in (a login failure
propagates before any ledger call), then performs verified_set(key, value); if
the set returned an error record, notarize returns that record unchanged;
otherwise it performs verified_get(key) and returns that result. -/
theorem notarize_write_then_readback (env : RpcEnv) (k : String) (v : PyVal) :
    (∀ e, env.loginExc = some e → notarize_body env k v = .error e)
    ∧ (env.loginExc = none →
        ∀ r, verified_set env (.str k) v = .ok r →
          (hasKeyB r "error" = true → notarize_body env k v = .ok r)
          ∧ (hasKeyB r "error" = false →
              notarize_body env k v = verified_get env (.str k) none)) := by
  constructor
  · intro e he
    rw [notarize_body, he]
  · intro hnone r hr
    constructor
    · intro hk
      rw [notarize_body, hnone]
      show (match verified_set env (.str k) v with
            | .error e => Except.error e
            | .ok result =>
              if hasKeyB result "error" then .ok result
              else verified_get env (.str k) none) = .ok r
      rw [hr]
      exact if_pos hk
    · intro hk
      rw [notarize_body, hnone]
      show (match verified_set env (.str k) v with
            | .error e => Except.error e
            | .ok result =>
              if hasKeyB result "error" then .ok result
              else verified_get env (.str k) none) = verified_get env (.str k) none
      rw [hr]
      exact if_neg (by simp [hk])

/-- Witness for C1: in a fully successful environment notarize returns the
verified read-back of the freshly written key. -/
theorem notarize_write_then_readback_witness :
    notarize_body envOk "key" (.str "v") = verified_get envOk (.str "key") none :=
  ((notarize_write_then_readback envOk "key" (.str "v")).2 rfl
    [("id", .int 1), ("verified", .bool true)] rfl).2 rfl

/-- C2: an RPC failure raised inside verified_get or verified_set is captured
as an error-record return value and never raises, so within the retry-wrapped
notarize and authenticate bodies the only step whose RPC failure can reach the
retry loop is the login. -/
theorem rpc_failures_confined_to_login :
    (∀ env (k v : PyVal) e, verified_set env k v = .error e → e.isRpcError = false)
    ∧ (∀ env (k : PyVal) rev e, verified_get env k rev = .error e → e.isRpcError = false)
    ∧ (∀ env (k : String) (v : PyVal) e, notarize_body env k v = .error e →
        e.isRpcError = true → env.loginExc = some e)
    ∧ (∀ env (k : PyVal) e, authenticate_body env k = .error e →
        e.isRpcError = true → env.loginExc = some e) := by
  refine ⟨verified_set_no_rpc_raise, verified_get_no_rpc_raise, ?_, ?_⟩
  · intro env k v e h hrpc
    rw [notarize_body] at h
    cases hl : env.loginExc with
    | some e0 =>
      rw [hl] at h
      have h2 : (Except.error e0 : Except Exc PyDict) = .error e := h
      injection h2 with hh
      rw [hh]
    | none =>
      rw [hl] at h
      have h2 : (match verified_set env (.str k) v with
            | .error e1 => Except.error e1
            | .ok result =>
              if hasKeyB result "error" then .ok result
              else verified_get env (.str k) none) = .error e := h
      cases hs : verified_set env (.str k) v with
      | error e1 =>
        rw [hs] at h2
        have h3 : (Except.error e1 : Except Exc PyDict) = .error e := h2
        injection h3 with hh
        have hfalse := verified_set_no_rpc_raise env (.str k) v e (hh ▸ hs)
        rw [hfalse] at hrpc
        cases hrpc
      | ok r =>
        rw [hs] at h2
        have h3 : (if hasKeyB r "error" = true then (Except.ok r : Except Exc PyDict)
              else verified_get env (.str k) none) = .error e := h2
        by_cases hk : hasKeyB r "error" = true
        · rw [if_pos hk] at h3; cases h3
        · rw [if_neg hk] at h3
          have hfalse := verified_get_no_rpc_raise env (.str k) none e h3
          rw [hfalse] at hrpc
          cases hrpc
  · intro env k e h hrpc
    rw [authenticate_body] at h
    cases hl : env.loginExc with
    | some e0 =>
      rw [hl] at h
      have h2 : (Except.error e0 : Except Exc PyDict) = .error e := h
      injection h2 with hh
      rw [hh]
    | none =>
      rw [hl] at h
      have hfalse := verified_get_no_rpc_raise env k none e h
      rw [hfalse] at hrpc
      cases hrpc

/-- Witness for C2: a notarize body failing with an RPC error implies that
very exception was the login outcome. -/
theorem rpc_failures_confined_to_login_witness :
    envLoginBoom.loginExc = some (.inactiveRpc (some "boom")) :=
  rpc_failures_confined_to_login.2.2.1 envLoginBoom "key" (.str "v")
    (.inactiveRpc (some "boom")) rfl rfl

/-- C5: for every key and value, verified_get and verified_set never propagate
an RPC-layer failure: on any RPC failure they return a mapping whose "error"
key holds the diagnostic text, and on success they return the decoded record
(verified_get) resp. the proof mapping (verified_set). -/
theorem verified_ops_capture_rpc_failures :
    (∀ env (k v : PyVal) resp, env.setOutcome (encode k) (encode v) = .ok resp →
        verified_set env k v = .ok (asdictSet resp))
    ∧ (∀ env (k v : PyVal) e, env.setOutcome (encode k) (encode v) = .error e →
        e.isRpcError = true →
        verified_set env k v = .ok [("error", .str (formatExc e))])
    ∧ (∀ env (k : PyVal) rev resp, env.getOutcome (encode k) rev = .ok resp →
        verified_get env k rev = .ok (to_dict resp))
    ∧ (∀ env (k : PyVal) rev e, env.getOutcome (encode k) rev = .error e →
        e.isRpcError = true →
        verified_get env k rev = .ok [("error", .str (formatExc e))])
    ∧ (∀ env (k v : PyVal) e, verified_set env k v = .error e → e.isRpcError = false)
    ∧ (∀ env (k : PyVal) rev e, verified_get env k rev = .error e → e.isRpcError = false) := by
  refine ⟨?_, ?_, ?_, ?_, verified_set_no_rpc_raise, verified_get_no_rpc_raise⟩
  · intro env k v resp h
    rw [verified_set, h]
  · intro env k v e h hrpc
    rw [verified_set, h]
    exact if_pos hrpc
  · intro env k rev resp h
    rw [verified_get, h]
  · intro env k rev e h hrpc
    rw [verified_get, h]
    exact if_pos hrpc

/-- Witness for C5: a concrete RPC write failure is returned as an error
record. -/
theorem verified_ops_capture_rpc_failures_witness :
    verified_set envSetRpcFail (.str "k") (.str "v")
      = .ok [("error", .str (formatExc (.inactiveRpc (some "boom"))))] :=
  verified_ops_capture_rpc_failures.2.1 envSetRpcFail (.str "k") (.str "v")
    (.inactiveRpc (some "boom")) rfl rfl

/-- C3: when every attempt of the retry-wrapped notarize fails with an RPC
failure whose detail contains a recognized transient signature, exactly
maxRetries attempts run, each attempt followed by the configured backoff
sleep, and the last observed failure is re-raised to the caller. -/
theorem notarize_retry_exhaustion (envs : Nat → RpcEnv) (det : Nat → String) (n : Nat)
    (key : String) (value : PyVal)
    (hn : 0 < n)
    (henv : ∀ i, (envs i).loginExc = some (.inactiveRpc (some (det i))))
    (hmatch : ∀ i, detailsMatch possible_exc_details_notarize (some (det i)) = true) :
    notarize envs (n : Int) (n + 1) key value =
      (allFailTrace 0 n, .raiseLast (.rpc (some (det (n - 1))))) := by
  have hf : ∀ j, notarize_body (envs j) key value = .error (.inactiveRpc (some (det j))) := by
    intro j
    rw [notarize_body, henv j]
  rw [notarize, retryRun,
    retryGo_allFail possible_exc_details_notarize _ (fun j => some (det j)) hf hmatch n 0 .bare]
  obtain ⟨m, rfl⟩ : ∃ m, n = m + 1 := ⟨n - 1, by omega⟩
  simp

/-- Witness for C3: three attempts, each with a backoff sleep, then the
timeout failure surfaces. -/
theorem notarize_retry_exhaustion_witness :
    notarize (fun _ => envTimeout) (3 : Int) 4 "key" (.str "v")
      = (allFailTrace 0 3, .raiseLast (.rpc (some "Connection timed out"))) :=
  notarize_retry_exhaustion (fun _ => envTimeout) (fun _ => "Connection timed out") 3
    "key" (.str "v") (by decide) (fun _ => rfl)
    (fun _ => by
      show detailsMatch possible_exc_details_notarize (some "Connection timed out") = true
      decide)

/-- C4: a retry-wrapped operation whose failure detail matches no recognized
signature performs exactly one attempt and re-raises immediately, with no
backoff sleep. -/
theorem retry_unmatched_detail_short_circuits (possible : List String)
    (f : Nat → Except Exc PyDict) (c : Int) (fuel : Nat) (det : Option String)
    (hc : ¬c = 0) (hf : f 0 = .error (.inactiveRpc det))
    (hm : detailsMatch possible det = false) :
    retryRun possible c f (fuel + 1) = ([.attempt 0], .raise (.inactiveRpc det)) := by
  rw [retryRun, retryGo, if_neg hc]
  show (match f 0 with
        | .ok v => ([REvent.attempt 0], RetryOut.value v)
        | .error (.inactiveRpc d) =>
          if detailsMatch possible d then
            let r := retryGo possible f fuel (c - 1) 1 (.rpc d)
            (REvent.attempt 0 :: REvent.sleepBackoff :: r.1, r.2)
          else ([REvent.attempt 0], .raise (.inactiveRpc d))
        | .error e => ([REvent.attempt 0], .raise e)) = _
  rw [hf]
  exact if_neg (by simp [hm])

/-- Witness for C4: an unrecognized detail string short-circuits after one
attempt. -/
theorem retry_unmatched_detail_short_circuits_witness :
    retryRun possible_exc_details_notarize 5
        (fun _ => .error (.inactiveRpc (some "unknown failure"))) 9
      = ([.attempt 0], .raise (.inactiveRpc (some "unknown failure"))) :=
  retry_unmatched_detail_short_circuits possible_exc_details_notarize
    (fun _ => .error (.inactiveRpc (some "unknown failure"))) 5 8
    (some "unknown failure") (by decide) rfl (by decide)

/-- C10 counterexample: for max_retries = -1, a non-positive value, the retry
loop body IS entered (the Python while-test checks nonzero-ness, and -1 is
truthy): the first attempt runs, and in a successful environment notarize
returns a value instead of raising a bare Exception. -/
theorem retry_negative_maxretries_counterexample :
    notarize (fun _ => envOk) (-1) 2 "key" (.str "v")
      = ([.attempt 0], .value (to_dict respOk))
    ∧ RetryOut.value (to_dict respOk) ≠ .raiseLast .bare :=
  ⟨rfl, fun h => nomatch h⟩

/-- C10 amended: for an instance with max_retries equal to 0 exactly, every
call to notarize or authenticate raises the bare contentless Exception without
attempting login or any ledger operation (empty event trace); negative values
instead enter the loop. -/
theorem retry_zero_raises_bare_exception (envs : Nat → RpcEnv) (fuel : Nat)
    (key : String) (value : PyVal) (akey : PyVal) :
    notarize envs 0 (fuel + 1) key value = ([], .raiseLast .bare)
    ∧ authenticate envs 0 (fuel + 1) akey = ([], .raiseLast .bare) :=
  ⟨rfl, rfl⟩

/-- C6: in the payloads built by notarize_file and notarize_git_repo, the
Metadata mapping merges with later-wins precedence schema defaults, then the
embedded git block, then caller metadata (their key sets make the first two
order-independent), and caller metadata can never overwrite the top-level
Name, Kind, Size, Hash, Signer fields, which are always protocol-computed. -/
theorem metadata_merge_precedence (H : String → String) (username : String)
    (f : FileInfo) (md : PyDict) (dirSize : Nat) (user : PyDict)
    (hnd : (user.map Prod.fst).Nodup) :
    (dlookup (file_payload H username f user) "Name" = some (.str f.name)
      ∧ dlookup (file_payload H username f user) "Kind" = some (.str "file")
      ∧ dlookup (file_payload H username f user) "Size"
          = some (.str (get_size_format (f.size : ℚ) 1024 "B"))
      ∧ dlookup (file_payload H username f user) "Hash" = some (.str (hash_file H f))
      ∧ dlookup (file_payload H username f user) "Signer" = some (.str username))
    ∧ (dlookup (git_payload H username md dirSize user) "Name"
          = some ((dlookup md "Name").getD .null)
      ∧ dlookup (git_payload H username md dirSize user) "Kind" = some (.str "git")
      ∧ dlookup (git_payload H username md dirSize user) "Size"
          = some (.str (get_size_format (dirSize : ℚ) 1024 "B"))
      ∧ dlookup (git_payload H username md dirSize user) "Hash"
          = some (.str (hash_content H (dumpsVal ((dlookup md "git").getD .null))))
      ∧ dlookup (git_payload H username md dirSize user) "Signer" = some (.str username))
    ∧ (∀ k v, dlookup user k = some v →
        metaLookup (file_payload H username f user) k = some v
        ∧ metaLookup (git_payload H username md dirSize user) k = some v)
    ∧ (∀ k, dlookup user k = none →
        metaLookup (file_payload H username f user) k = dlookup default_metadata k)
    ∧ (∀ k, dlookup user k = none → ¬k = "git" →
        metaLookup (git_payload H username md dirSize user) k = dlookup default_metadata k)
    ∧ (dlookup user "git" = none →
        metaLookup (git_payload H username md dirSize user) "git"
          = some ((dlookup md "git").getD .null)) := by
  refine ⟨⟨rfl, rfl, rfl, rfl, rfl⟩, ⟨rfl, rfl, rfl, rfl, rfl⟩, ?_, ?_, ?_, ?_⟩
  · intro k v hv
    constructor
    · show dlookup (dictMerge default_metadata user) k = some v
      exact dlookup_dictMerge_of_some _ user k v hnd hv
    · show dlookup (dictMerge (dictMerge [("git", (dlookup md "git").getD .null)]
          default_metadata) user) k = some v
      exact dlookup_dictMerge_of_some _ user k v hnd hv
  · intro k hk
    show dlookup (dictMerge default_metadata user) k = dlookup default_metadata k
    exact dlookup_dictMerge_of_none _ user k hk
  · intro k hk hkg
    show dlookup (dictMerge (dictMerge [("git", (dlookup md "git").getD .null)]
        default_metadata) user) k = dlookup default_metadata k
    rw [dlookup_dictMerge_of_none _ user k hk]
    show dlookup [("git", (dlookup md "git").getD .null), ("sbom_api_ver", Val.str "0.2")] k
        = dlookup default_metadata k
    rw [dlookup_cons_ne "git" _ _ k (fun hh => hkg hh.symm)]
    rfl
  · intro hk
    show dlookup (dictMerge (dictMerge [("git", (dlookup md "git").getD .null)]
        default_metadata) user) "git" = some ((dlookup md "git").getD .null)
    rw [dlookup_dictMerge_of_none _ user _ hk]
    show dlookup [("git", (dlookup md "git").getD .null), ("sbom_api_ver", Val.str "0.2")] "git"
        = some ((dlookup md "git").getD .null)
    exact dlookup_cons_eq "git" _ _

/-- Witness for C6: a caller key colliding with the schema default wins inside
Metadata. -/
theorem metadata_merge_precedence_witness :
    metaLookup (file_payload HW "immudb" f0 user0) "sbom_api_ver" = some (.str "v9") :=
  ((metadata_merge_precedence HW "immudb" f0 md0 7 user0 (by decide)).2.2.1
    "sbom_api_ver" (.str "v9") rfl).1

theorem roundHalfEven_of_lt_half (q : ℚ) (n : ℤ) (hf : ⌊q⌋ = n) (h : q - n < 1 / 2) :
    roundHalfEven q = n := by
  rw [roundHalfEven, hf, if_pos h]

theorem roundHalfEven_of_gt_half (q : ℚ) (n : ℤ) (hf : ⌊q⌋ = n) (h : 1 / 2 < q - n) :
    roundHalfEven q = n + 1 := by
  rw [roundHalfEven, hf, if_neg (by linarith), if_pos h]

theorem format2f_of_round (x : ℚ) (m : ℤ) (hm : roundHalfEven (100 * x) = m) (h0 : 0 ≤ m) :
    format2f x = toString (m.toNat / 100) ++ "." ++ pad2 (m.toNat % 100) := by
  rw [format2f, hm, if_neg (by omega)]

/-- C9: get_size_format iterates the unit prefixes "",K,M,G,T,P,E,Z, dividing
by the factor while the value is at least the factor, formats with two decimal
places, falls through to the Y suffix after the last named unit, and matches
the reference outputs exactly. -/
theorem get_size_format_reference_outputs :
    get_size_format 1253656 1024 "B" = "1.20 MB"
    ∧ get_size_format 0 1024 "B" = "0.00 B"
    ∧ get_size_format 1024 1024 "B" = "1.00 KB"
    ∧ get_size_format (1024 ^ 8) 1024 "B" = "1.00 YB" := by
  refine ⟨?_, ?_, ?_, ?_⟩
  · rw [get_size_format, sizeLoop, if_neg (by norm_num), sizeLoop, if_neg (by norm_num),
      sizeLoop, if_pos (by norm_num)]
    have hf : ⌊(100 * ((1253656 : ℚ) / 1024 / 1024) : ℚ)⌋ = 119 := by
      rw [Int.floor_eq_iff]
      exact ⟨by norm_num, by norm_num⟩
    rw [format2f_of_round _ 120 (roundHalfEven_of_gt_half _ 119 hf (by norm_num)) (by norm_num)]
    rfl
  · rw [get_size_format, sizeLoop, if_pos (by norm_num)]
    have hf : ⌊(100 * (0 : ℚ) : ℚ)⌋ = 0 := by
      rw [Int.floor_eq_iff]
      exact ⟨by norm_num, by norm_num⟩
    rw [format2f_of_round _ 0 (roundHalfEven_of_lt_half _ 0 hf (by norm_num)) (by norm_num)]
    rfl
  · rw [get_size_format, sizeLoop, if_neg (by norm_num), sizeLoop, if_pos (by norm_num)]
    have h1 : ((1024 : ℚ) / 1024) = 1 := by norm_num
    rw [h1]
    have hf : ⌊(100 * (1 : ℚ) : ℚ)⌋ = 100 := by
      rw [Int.floor_eq_iff]
      exact ⟨by norm_num, by norm_num⟩
    rw [format2f_of_round _ 100 (roundHalfEven_of_lt_half _ 100 hf (by norm_num)) (by norm_num)]
    rfl
  · rw [get_size_format, sizeLoop, if_neg (by norm_num), sizeLoop, if_neg (by norm_num),
      sizeLoop, if_neg (by norm_num), sizeLoop, if_neg (by norm_num),
      sizeLoop, if_neg (by norm_num), sizeLoop, if_neg (by norm_num),
      sizeLoop, if_neg (by norm_num), sizeLoop, if_neg (by norm_num), sizeLoop]
    have h1 : ((1024 : ℚ) ^ 8 / 1024 / 1024 / 1024 / 1024 / 1024 / 1024 / 1024 / 1024) = 1 := by
      norm_num
    rw [h1]
    have hf : ⌊(100 * (1 : ℚ) : ℚ)⌋ = 100 := by
      rw [Int.floor_eq_iff]
      exact ⟨by norm_num, by norm_num⟩
    rw [format2f_of_round _ 100 (roundHalfEven_of_lt_half _ 100 hf (by norm_num)) (by norm_num)]
    rfl

theorem find?_hexsha_eq (sha : String) (c : GitCommit) :
    ∀ (l : List GitCommit), l.find? (fun c0 => decide (c0.hexsha = sha)) = some c →
      c.hexsha = sha := by
  intro l
  induction l with
  | nil => intro h; cases h
  | cons hd tl ih =>
    intro h
    rw [List.find?] at h
    cases hp : decide (hd.hexsha = sha) with
    | true =>
      rw [hp] at h
      have h2 : some hd = some c := h
      injection h2 with h3
      rw [← h3]
      exact of_decide_eq_true hp
    | false =>
      rw [hp] at h
      exact ih h

theorem ancestorChain_map_hexsha (repo : GitRepo) :
    ∀ (fuel : Nat) (o : Option String),
      (ancestorChain repo fuel o).map (fun c => c.hexsha) = ancestor_shas repo fuel o := by
  intro fuel
  induction fuel with
  | zero => intro o; rfl
  | succ m ih =>
    intro o
    cases o with
    | none => rfl
    | some sha =>
      cases hc : lookupCommit repo sha with
      | none => simp only [ancestorChain, ancestor_shas, hc, List.map_nil]
      | some c =>
        have hc2 : repo.commits.find? (fun c0 => decide (c0.hexsha = sha)) = some c := hc
        have hp : c.hexsha = sha := find?_hexsha_eq sha c repo.commits hc2
        simp only [ancestorChain, ancestor_shas, hc, List.map_cons, ih, hp]

/-- C7 counterexample: in a concrete three-commit linear repository the
Parents field of the extracted git metadata holds the shas of ALL ancestors of
HEAD, which differs from the list of direct parent shas of the HEAD commit. -/
theorem parents_field_counterexample :
    parents_field repoLinear 3 = some (.arr [.str "bbbbbbb2", .str "ccccccc3"])
    ∧ lookupCommit repoLinear repoLinear.headSha = some cA
    ∧ cA.parents = ["bbbbbbb2"]
    ∧ parents_field repoLinear 3 ≠ some (.arr (cA.parents.map Val.str)) := by
  refine ⟨rfl, rfl, rfl, ?_⟩
  intro h
  rw [show parents_field repoLinear 3
      = some (Val.arr [Val.str "bbbbbbb2", Val.str "ccccccc3"]) from rfl] at h
  have h2 := congrArg (fun o => match o with
    | some (Val.arr l) => l.length
    | _ => 0) h
  have h3 : cA.parents.length = 1 := rfl
  simp at h2
  omega

/-- C7 amended: for every repository whose HEAD resolves, the Parents field of
the extracted git metadata is the ordered list of ALL ancestor shas of the
HEAD commit (its first parent, then the ancestors of that commit in turn, as
yielded by the history traversal), not only the direct parents. -/
theorem parents_field_all_ancestors (repo : GitRepo) (fuel : Nat) (c : GitCommit)
    (h : lookupCommit repo repo.headSha = some c) :
    parents_field repo fuel
      = some (.arr ((ancestor_shas repo fuel c.parents.head?).map Val.str)) := by
  have hmm : ((iterParents repo fuel c).map fun p => Val.str p.hexsha)
      = (ancestor_shas repo fuel c.parents.head?).map Val.str := by
    rw [iterParents, ← ancestorChain_map_hexsha repo fuel c.parents.head?, List.map_map]
    rfl
  have hx : extract_git_metadata repo fuel = some (git_metadata_body repo fuel c) := by
    simp only [extract_git_metadata, h]
  rw [parents_field, hx]
  show some (Val.arr ((iterParents repo fuel c).map fun p => Val.str p.hexsha))
      = some (.arr ((ancestor_shas repo fuel c.parents.head?).map Val.str))
  rw [hmm]

/-- Witness for C7 amended, at the concrete linear repository. -/
theorem parents_field_all_ancestors_witness :
    parents_field repoLinear 3
      = some (.arr ((ancestor_shas repoLinear 3 cA.parents.head?).map Val.str)) :=
  parents_field_all_ancestors repoLinear 3 cA rfl

/-- C8: the ArtifactKey of notarize_git_repo is the hash of the
JSON-serialized git metadata block, not of the repository tree: it agrees
between two clones with the same remote URL and the same HEAD commit history,
it ignores the directory size and the caller metadata, and
authenticate_git_repo recomputes exactly the same key. -/
theorem git_key_from_metadata_block (H : String → String) (username : String)
    (r1 r2 : GitRepo) (fuel : Nat) (c : GitCommit) (d1 d2 : Nat) (u1 u2 : PyDict)
    (h1 : lookupCommit r1 r1.headSha = some c)
    (h2 : lookupCommit r2 r2.headSha = some c)
    (hnet : r1.remoteNetloc = r2.remoteNetloc)
    (hpath : r1.remotePath = r2.remotePath)
    (hanc : iterParents r1 fuel c = iterParents r2 fuel c) :
    (notarize_git_repo_call H username r1 fuel d1 u1).map Prod.fst
      = (notarize_git_repo_call H username r2 fuel d2 u2).map Prod.fst
    ∧ (notarize_git_repo_call H username r1 fuel d1 u1).map Prod.fst
      = authenticate_git_repo_key H r1 fuel
    ∧ authenticate_git_repo_key H r1 fuel
      = some (hash_content H (dumpsVal
          ((dlookup ((extract_git_metadata r1 fuel).getD []) "git").getD .null))) := by
  have hx1 : extract_git_metadata r1 fuel = some (git_metadata_body r1 fuel c) := by
    simp only [extract_git_metadata, h1]
  have hx2 : extract_git_metadata r2 fuel = some (git_metadata_body r2 fuel c) := by
    simp only [extract_git_metadata, h2]
  have hbody : git_metadata_body r1 fuel c = git_metadata_body r2 fuel c := by
    rw [git_metadata_body, git_metadata_body, hnet, hpath, hanc]
  have k1 : (notarize_git_repo_call H username r1 fuel d1 u1).map Prod.fst
      = some (hash_content H (dumpsVal
          ((dlookup (git_metadata_body r1 fuel c) "git").getD Val.null))) := by
    rw [notarize_git_repo_call, hx1]
    rfl
  have k2 : (notarize_git_repo_call H username r2 fuel d2 u2).map Prod.fst
      = some (hash_content H (dumpsVal
          ((dlookup (git_metadata_body r2 fuel c) "git").getD Val.null))) := by
    rw [notarize_git_repo_call, hx2]
    rfl
  refine ⟨?_, ?_, ?_⟩
  · rw [k1, k2, hbody]
  · rw [k1, authenticate_git_repo_key, hx1]
    rfl
  · rw [authenticate_git_repo_key, hx1]
    rfl

/-- Witness for C8: two physically different clones of the same commit (other
object-store order, one extra unreachable commit, different directory size and
caller metadata) yield the same ArtifactKey. -/
theorem git_key_from_metadata_block_witness :
    (notarize_git_repo_call HW "immudb" repoLinear 3 10 []).map Prod.fst
      = (notarize_git_repo_call HW "immudb" repoClone 3 999 user0).map Prod.fst :=
  (git_key_from_metadata_block HW "immudb" repoLinear repoClone 3 cA 10 999 [] user0
    rfl rfl rfl rfl rfl).1
